import Mathlib

/-!
Verification development for the queue-maintenance controller of the
ashuffle repository (src/ashuffle.cc).  The controller logic of
`TryFirst`, `TryEnqueue`, `Reloader` and one iteration of `Loop` is
embedded shallowly: the external MPD player is modelled as an oracle
stream of `Status` values, and the external `ShuffleChain::Pick` as an
oracle stream of picked groups (each a list of song URIs).  Machine
integers are modelled as `Nat`/`Int` with explicit reduction modulo
2^32 where the C++ code performs unsigned arithmetic or casts between
`unsigned` and `int`.
-/

namespace Ashuffle

/-- Status as exposed by `mpd::Status` (src/mpd.h): queue length
(`unsigned`, modelled as `Nat`), queue position of the current song
(`std::optional<int>`), the single-mode flag and the play state. -/
structure Status where
  queueLength : Nat
  songPosition : Option Int
  single : Bool
  isPlaying : Bool

/-- Tweak options consumed by `Loop` (`Options::tweak`).  The suspend
timeout is a duration; only its comparison against zero matters to the
control flow, so it is modelled as a `Nat` (0 = `absl::ZeroDuration()`). -/
structure Tweak where
  suspend_timeout : Nat
  play_on_startup : Bool
  exit_on_db_update : Bool

/-- Options consumed by `TryEnqueue`/`Loop`/`Reloader`: the configured
queue buffer (`unsigned`) and whether a `--file` input was given
(`options.file_in != nullptr` modelled as a `Bool`). -/
structure Options where
  queue_buffer : Nat
  file_in : Bool
  tweak : Tweak

/-- Modelled from the spec: the Shuffle Chain (shuffle.h is not part of
the sources given) reduced to what the controller observes — the list
of registered item groups.  `Clear` empties it and a reload replaces it
wholesale. -/
structure ShuffleChain where
  groups : List (List String)

/-- Modelled from the spec: the number of registered groups (`Len`). -/
def ShuffleChain.Len (c : ShuffleChain) : Nat := c.groups.length

/-- Modelled from the spec: the total number of underlying identifiers
(`LenURIs`), the sum of the group weights. -/
def ShuffleChain.LenURIs (c : ShuffleChain) : Nat :=
  (c.groups.map List.length).sum

/-- Observable actions the controller performs against the player and
the chain, in order: appending a group's URIs (`mpd->Add(picked)`),
starting playback at a queue position (`mpd->PlayAt`), pausing
(`mpd->Pause`), the suspend sleep (`test_d.sleep_f`), and clearing and
reloading the chain (`songs->Clear()`, `Load(songs)`). -/
inductive Act where
  | add (uris : List String)
  | playAt (pos : Nat)
  | pause
  | sleep
  | clearChain
  | loadChain

/-- Idle event constants from mpd/idle.h (libmpdclient bit values). -/
def MPD_IDLE_DATABASE : Nat := 1

/-- Idle event constant for queue changes (`MPD_IDLE_QUEUE`, equal to
`MPD_IDLE_PLAYLIST`). -/
def MPD_IDLE_QUEUE : Nat := 4

/-- Idle event constant for player-state changes. -/
def MPD_IDLE_PLAYER : Nat := 8

/-- IdleEventSet from src/mpd.h: an integer bit-set of idle events. -/
structure IdleEventSet where
  events : Nat

/-- Has returns true when the given event bit is in the set
(`!!(events & event)`). -/
def IdleEventSet.Has (s : IdleEventSet) (e : Nat) : Bool :=
  s.events.land e != 0

/-- Environment for one run of the controller: the successive results
of `mpd->CurrentStatus()`, the successive results of `songs->Pick()`,
and the group list a reload would install. -/
structure Env where
  statuses : Nat → Status
  picks : Nat → List String
  loadResult : List (List String)

/-- Conversion of an `unsigned` value to `int` (`static_cast<int>`),
modelled as the wrap-around representative in [-2^31, 2^31). -/
def toInt32 (n : Nat) : Int :=
  ((n : Int) + 2147483648) % 4294967296 - 2147483648

/-- past_last in `TryEnqueue`: there is no current song position. -/
def pastLast (st : Status) : Bool := st.songPosition.isNone

/-- queue_empty in `TryEnqueue`: the queue length is 0. -/
def queueEmpty (st : Status) : Bool := st.queueLength == 0

/-- queue_songs_remaining in `TryEnqueue`: 0 when past the last song,
otherwise the unsigned value `QueueLength() - (SongPosition() + 1)`,
computed with C++ unsigned (mod 2^32) semantics. -/
def queueSongsRemaining (st : Status) : Nat :=
  match st.songPosition with
  | none => 0
  | some p => (((st.queueLength : Int) - (p + 1)) % 4294967296).toNat

/-- should_add in `TryEnqueue`: the decision chain of lines 64-76 of
src/ashuffle.cc. -/
def shouldAdd (st : Status) (qb : Nat) : Bool :=
  if pastLast st then true
  else if queueSongsRemaining st < qb then true
  else if queueEmpty st then true
  else false

/-- Initial value of `needed` in the queue-buffer branch of
`TryEnqueue`: `(int)queue_buffer - (int)queue_songs_remaining`, plus
one when past the last song or the queue is empty. -/
def neededInit (st : Status) (qb : Nat) : Int :=
  let base := toInt32 qb - toInt32 (queueSongsRemaining st)
  if pastLast st || queueEmpty st then base + 1 else base

/-- The `while (needed > 0)` loop of `TryEnqueue` (lines 89-93):
repeatedly pick a group, subtract its size from `needed` and append
it.  The C++ loop has no fuel; the `fuel` parameter makes the model
total, with `none` standing for an execution that has not finished
within `fuel` iterations. -/
def enqueueLoop (picks : Nat → List String) :
    Nat → Nat → Int → Option (List (List String) × Nat)
  | fuel, i, needed =>
    if 0 < needed then
      match fuel with
      | 0 => none
      | f + 1 =>
        match enqueueLoop picks f (i + 1) (needed - toInt32 (picks i).length) with
        | none => none
        | some (rest, j) => some (picks i :: rest, j)
    else some ([], i)

/-- TryEnqueue (src/ashuffle.cc lines 50-111): reads one status, makes
the should_add decision, performs the picks/appends, and restarts (and
possibly pauses) the player.  Returns the emitted actions and the next
unread pick index, or `none` when the pick loop did not finish within
`fuel` iterations. -/
def TryEnqueue (opts : Options) (st : Status) (picks : Nat → List String)
    (pIdx fuel : Nat) : Option (List Act × Nat) :=
  let sa := shouldAdd st opts.queue_buffer
  match (if sa then
           (if opts.queue_buffer ≠ 0 then
              enqueueLoop picks fuel pIdx (neededInit st opts.queue_buffer)
            else some ([picks pIdx], pIdx + 1))
         else some ([], pIdx)) with
  | none => none
  | some (gs, p2) =>
      some (gs.map Act.add ++
        (if sa && (pastLast st || queueEmpty st) then
           Act.playAt st.queueLength ::
             (if st.single then [Act.pause] else [])
         else []), p2)

/-- TryFirst (src/ashuffle.cc lines 37-48): read a status; when the
player is already playing do nothing, otherwise add one picked group
and start playing at the former queue length.  Returns the actions and
the next status/pick indices. -/
def TryFirst (env : Env) (sIdx pIdx : Nat) : List Act × Nat × Nat :=
  let st := env.statuses sIdx
  if st.isPlaying then ([], sIdx + 1, pIdx)
  else ([Act.add (env.picks pIdx), Act.playAt st.queueLength],
        sIdx + 1, pIdx + 1)

/-- Startup phase of `Loop` (lines 161-164): when play_on_startup is
set, run `TryFirst` then one ordinary `TryEnqueue` pass. -/
def StartupPhase (opts : Options) (env : Env) (fuel : Nat) :
    Option (List Act × Nat × Nat) :=
  if opts.tweak.play_on_startup then
    match TryFirst env 0 0 with
    | (a1, s1, p1) =>
      match TryEnqueue opts (env.statuses s1) env.picks p1 fuel with
      | none => none
      | some (a2, p2) => some (a1 ++ a2, s1 + 1, p2)
  else some ([], 0, 0)

/-- Reloader (src/ashuffle.cc lines 140-148): no loader is available
when a `--file` input was given, otherwise an MPD loader is built.  The
loader itself is external, so it is represented by `Unit`. -/
def Reloader (opts : Options) : Option Unit :=
  if opts.file_in then none else some ()

/-- Result of one iteration of the event loop: whether the process
exited, the active flag and chain afterwards, the actions performed,
and the next status/pick indices. -/
structure IterOut where
  exited : Bool
  active : Bool
  chain : ShuffleChain
  trace : List Act
  sIdx : Nat
  pIdx : Nat

/-- The queue/player branch of `Loop` (lines 189-202): the suspend
check (read status; when the queue is empty, sleep, re-read, and set
`active = (QueueLength() == 0)` exactly as the source does), then skip
when inactive, otherwise run `TryEnqueue`. -/
def suspendProbe (opts : Options) (env : Env) (active : Bool)
    (sIdx : Nat) : Bool × List Act × Nat :=
  if opts.tweak.suspend_timeout ≠ 0 then
    if (env.statuses sIdx).queueLength == 0 then
      (((env.statuses (sIdx + 1)).queueLength == 0),
       [Act.sleep], sIdx + 2)
    else (active, ([] : List Act), sIdx + 1)
  else (active, ([] : List Act), sIdx)

/-- Continuation of the queue/player branch after the suspend check:
skip when inactive, otherwise run `TryEnqueue`. -/
def QueuePlayerStep (opts : Options) (env : Env) (active : Bool)
    (chain : ShuffleChain) (sIdx pIdx fuel : Nat) : Option IterOut :=
  match suspendProbe opts env active sIdx with
  | (active2, pre, s2) =>
    if active2 then
      match TryEnqueue opts (env.statuses s2) env.picks pIdx fuel with
      | none => none
      | some (acts, p2) =>
          some ⟨false, active2, chain, pre ++ acts, s2 + 1, p2⟩
    else some ⟨false, active2, chain, pre, s2, pIdx⟩

/-- One iteration of the event loop of `Loop` (lines 170-203), after
`Idle` returned `events`: the database-exit check, then the reload
branch, then the queue/player branch. -/
def LoopIter (opts : Options) (env : Env) (events : IdleEventSet)
    (active : Bool) (chain : ShuffleChain) (sIdx pIdx fuel : Nat) :
    Option IterOut :=
  if events.Has MPD_IDLE_DATABASE && opts.tweak.exit_on_db_update then
    some ⟨true, active, chain, [], sIdx, pIdx⟩
  else if events.Has MPD_IDLE_DATABASE && !opts.file_in then
    match Reloader opts with
    | some _ =>
        some ⟨false, active, ⟨env.loadResult⟩,
              [Act.clearChain, Act.loadChain], sIdx, pIdx⟩
    | none => some ⟨false, active, chain, [], sIdx, pIdx⟩
  else if events.Has MPD_IDLE_QUEUE || events.Has MPD_IDLE_PLAYER then
    QueuePlayerStep opts env active chain sIdx pIdx fuel
  else
    some ⟨false, active, chain, [], sIdx, pIdx⟩

/-- Spec-side remaining count: the number of queued songs strictly
after the current position (`queue length - (position + 1)` over
mathematical naturals), 0 when there is no current song. -/
def remainingSpec (st : Status) : Nat :=
  match st.songPosition with
  | none => 0
  | some p => st.queueLength - (p + 1).toNat

/-- Groups picked by `k` consecutive `Pick` calls starting at index
`i`. -/
def groupsFrom (picks : Nat → List String) : Nat → Nat → List (List String)
  | _, 0 => []
  | i, k + 1 => picks i :: groupsFrom picks (i + 1) k

/-- Total number of identifiers in a list of groups. -/
def sumLen (gs : List (List String)) : Nat := (gs.map List.length).sum

end Ashuffle

namespace Ashuffle

theorem toInt32_eq_of_lt {n : Nat} (h : n < 2147483648) : toInt32 n = n := by
  unfold toInt32
  have h1 : ((n : Int) + 2147483648) % 4294967296 = (n : Int) + 2147483648 :=
    Int.emod_eq_of_lt (by omega) (by omega)
  omega

theorem groupsFrom_zero (picks : Nat → List String) (i : Nat) :
    groupsFrom picks i 0 = [] := rfl

theorem groupsFrom_succ (picks : Nat → List String) (i k : Nat) :
    groupsFrom picks i (k + 1) = picks i :: groupsFrom picks (i + 1) k := rfl

theorem sumLen_nil : sumLen [] = 0 := rfl

theorem sumLen_cons (g : List String) (gs : List (List String)) :
    sumLen (g :: gs) = g.length + sumLen gs := by
  simp [sumLen]

theorem enqueueLoop_sound (picks : Nat → List String)
    (hne : ∀ j, (picks j).length ≠ 0)
    (hsm : ∀ j, (picks j).length < 2147483648) :
    ∀ fuel i needed, needed.toNat ≤ fuel →
      ∃ k, enqueueLoop picks fuel i needed =
             some (groupsFrom picks i k, i + k) ∧
        needed ≤ (sumLen (groupsFrom picks i k) : Int) ∧
        (k = 0 → needed ≤ 0) ∧
        (0 < k → (sumLen (groupsFrom picks i (k - 1)) : Int) < needed) := by
  intro fuel
  induction fuel with
  | zero =>
    intro i needed h
    have h0 : ¬ 0 < needed := by omega
    refine ⟨0, ?_, ?_, fun _ => by omega, fun hk => by omega⟩
    · rw [enqueueLoop, if_neg h0, groupsFrom_zero, Nat.add_zero]
    · rw [groupsFrom_zero]
      simp [sumLen_nil]
      omega
  | succ f ih =>
    intro i needed h
    by_cases h0 : 0 < needed
    · have hL := hne i
      have hLs := hsm i
      have hcast : toInt32 (picks i).length = ((picks i).length : Int) :=
        toInt32_eq_of_lt hLs
      have hrec : (needed - toInt32 (picks i).length).toNat ≤ f := by
        rw [hcast]; omega
      obtain ⟨k, hk, hsum, hk0, hpre⟩ := ih (i + 1) _ hrec
      refine ⟨k + 1, ?_, ?_, fun hc => by omega, fun _ => ?_⟩
      · rw [enqueueLoop, if_pos h0]
        simp only [hk, groupsFrom_succ]
        have : i + 1 + k = i + (k + 1) := by omega
        rw [this]
      · rw [groupsFrom_succ, sumLen_cons]
        push_cast at hsum ⊢
        omega
      · have hkk : k + 1 - 1 = k := by omega
        rw [hkk]
        rcases Nat.eq_zero_or_pos k with hz | hpos
        · subst hz
          rw [groupsFrom_zero]
          simp [sumLen_nil]
          omega
        · obtain ⟨m, hm⟩ := Nat.exists_eq_add_of_lt hpos
          have hmk : k = m + 1 := by omega
          subst hmk
          rw [groupsFrom_succ, sumLen_cons]
          have hp := hpre (by omega)
          have hmm : m + 1 - 1 = m := by omega
          rw [hmm] at hp
          rw [hcast] at hp
          push_cast at hp ⊢
          omega
    · refine ⟨0, ?_, ?_, fun _ => by omega, fun hk => by omega⟩
      · rw [enqueueLoop, if_neg h0, groupsFrom_zero, Nat.add_zero]
      · rw [groupsFrom_zero]
        simp [sumLen_nil]
        omega

theorem tryEnqueue_shape (opts : Options) (st : Status)
    (picks : Nat → List String) (pIdx fuel : Nat)
    (hne : ∀ j, (picks j).length ≠ 0)
    (hsm : ∀ j, (picks j).length < 2147483648)
    (hfuel : (neededInit st opts.queue_buffer).toNat ≤ fuel) :
    ∃ (gs : List (List String)) (p2 : Nat), TryEnqueue opts st picks pIdx fuel =
      some (gs.map Act.add ++
        (if shouldAdd st opts.queue_buffer && (pastLast st || queueEmpty st) then
           Act.playAt st.queueLength :: (if st.single then [Act.pause] else [])
         else []), p2) := by
  by_cases hsa : shouldAdd st opts.queue_buffer
  · by_cases hqb : opts.queue_buffer = 0
    · have hsa0 : shouldAdd st 0 = true := by rw [hqb] at hsa; exact hsa
      refine ⟨[picks pIdx], pIdx + 1, ?_⟩
      simp [TryEnqueue, hqb, hsa0]
    · obtain ⟨k, hk, -, -, -⟩ :=
        enqueueLoop_sound picks hne hsm fuel pIdx _ hfuel
      refine ⟨groupsFrom picks pIdx k, pIdx + k, ?_⟩
      simp [TryEnqueue, hsa, hqb, hk]
  · refine ⟨[], pIdx, ?_⟩
    simp [TryEnqueue, hsa]

theorem tryEnqueue_no_chain_act {opts : Options} {st : Status}
    {picks : Nat → List String} {pIdx fuel : Nat} {acts : List Act} {p2 : Nat}
    (h : TryEnqueue opts st picks pIdx fuel = some (acts, p2)) :
    Act.clearChain ∉ acts ∧ Act.loadChain ∉ acts := by
  simp only [TryEnqueue] at h
  split at h
  · exact absurd h (by simp)
  · rename_i gs p3 heq
    simp only [Option.some.injEq, Prod.mk.injEq] at h
    obtain ⟨ha, -⟩ := h
    subst ha
    constructor <;>
      · simp only [List.mem_append, List.mem_map]
        rintro (⟨g, -, hg⟩ | hmem)
        · exact absurd hg (by simp)
        · split at hmem <;> simp_all

theorem queuePlayerStep_frame {opts : Options} {env : Env} {active : Bool}
    {chain : ShuffleChain} {sIdx pIdx fuel : Nat} {out : IterOut}
    (h : QueuePlayerStep opts env active chain sIdx pIdx fuel = some out) :
    out.chain = chain ∧ Act.clearChain ∉ out.trace ∧
      Act.loadChain ∉ out.trace := by
  rcases hsp : suspendProbe opts env active sIdx with ⟨a2, pre, s2⟩
  have hpre : pre = [] ∨ pre = [Act.sleep] := by
    unfold suspendProbe at hsp
    split at hsp
    · split at hsp
      · simp only [Prod.mk.injEq] at hsp
        right; exact hsp.2.1.symm
      · simp only [Prod.mk.injEq] at hsp
        left; exact hsp.2.1.symm
    · simp only [Prod.mk.injEq] at hsp
      left; exact hsp.2.1.symm
  have hpre2 : Act.clearChain ∉ pre ∧ Act.loadChain ∉ pre := by
    rcases hpre with h1 | h1 <;> subst h1 <;> simp
  simp only [QueuePlayerStep, hsp] at h
  split at h
  · rcases hte : TryEnqueue opts (env.statuses s2) env.picks pIdx fuel with
      _ | ⟨acts, p2⟩
    · rw [hte] at h; exact absurd h (by simp)
    · rw [hte] at h
      simp only [Option.some.injEq] at h
      obtain ⟨hc, hl⟩ := tryEnqueue_no_chain_act hte
      subst h
      refine ⟨rfl, ?_, ?_⟩ <;> simp [List.mem_append, hpre2.1, hpre2.2, hc, hl]
  · simp only [Option.some.injEq] at h
    subst h
    exact ⟨rfl, hpre2.1, hpre2.2⟩

/-- C1 (code behaviour at the failing inputs): with a nonzero suspend
timeout and a queue that reads empty on a QueueChanged event, the code
sets `active = (QueueLength() == 0)` after the sleep.  So when the
queue is STILL EMPTY at the recheck the controller stays active and
enqueues (first conjunct), and when the queue became NON-EMPTY during
the sleep the controller becomes inactive and skips enqueuing (second
conjunct) — in both cases the opposite of the specified behaviour. -/
theorem loopIter_suspend_divergence :
    (LoopIter ⟨0, false, ⟨5, false, false⟩⟩
        ⟨fun _ => ⟨0, none, false, false⟩, fun _ => ["song"], []⟩
        ⟨MPD_IDLE_QUEUE⟩ true ⟨[["a"]]⟩ 0 0 1 =
      some ⟨false, true, ⟨[["a"]]⟩,
            [Act.sleep, Act.add ["song"], Act.playAt 0], 3, 1⟩) ∧
    (LoopIter ⟨0, false, ⟨5, false, false⟩⟩
        ⟨fun n => if n = 0 then ⟨0, none, false, false⟩
                  else ⟨1, some 0, false, false⟩,
         fun _ => ["song"], []⟩
        ⟨MPD_IDLE_QUEUE⟩ true ⟨[["a"]]⟩ 0 0 1 =
      some ⟨false, false, ⟨[["a"]]⟩, [Act.sleep], 2, 0⟩) :=
  ⟨rfl, rfl⟩

/-- C2: for a status whose current song position, when present, is a
valid queue index (and a queue length expressible as `unsigned`),
should_add holds iff there is no current position, or the number of
songs strictly after the current position is below the queue buffer,
or the queue is empty. -/
theorem shouldAdd_iff_spec (st : Status) (qb : Nat)
    (hpos : ∀ p, st.songPosition = some p → 0 ≤ p ∧ p < (st.queueLength : Int))
    (hlen : st.queueLength < 4294967296) :
    shouldAdd st qb = true ↔
      (st.songPosition = none ∨ remainingSpec st < qb ∨
       st.queueLength = 0) := by
  cases hsp : st.songPosition with
  | none => simp [shouldAdd, pastLast, hsp]
  | some p =>
    obtain ⟨hp0, hpl⟩ := hpos p hsp
    have hnn : 0 ≤ (st.queueLength : Int) - (p + 1) := by omega
    have hlt : (st.queueLength : Int) - (p + 1) < 4294967296 := by omega
    have hrem : queueSongsRemaining st = remainingSpec st := by
      simp only [queueSongsRemaining, remainingSpec, hsp]
      rw [Int.emod_eq_of_lt hnn hlt]
      omega
    by_cases h1 : remainingSpec st < qb <;>
      by_cases h2 : st.queueLength = 0 <;>
        simp [shouldAdd, pastLast, queueEmpty, hsp, hrem, h1, h2]

theorem shouldAdd_iff_spec_witness :
    shouldAdd ⟨5, some 3, false, false⟩ 2 = true ↔
      ((⟨5, some 3, false, false⟩ : Status).songPosition = none ∨
       remainingSpec ⟨5, some 3, false, false⟩ < 2 ∨
       (⟨5, some 3, false, false⟩ : Status).queueLength = 0) :=
  shouldAdd_iff_spec ⟨5, some 3, false, false⟩ 2
    (by intro p hp
        injection hp with h
        subst h
        exact ⟨by decide, by decide⟩)
    (by decide)

/-- C5: with a zero queue buffer, a positive should_add decision picks
exactly one group and appends exactly its identifiers, regardless of
the group's size; the player restart follows when past the last song
or the queue is empty. -/
theorem tryEnqueue_single_group (opts : Options) (st : Status)
    (picks : Nat → List String) (pIdx fuel : Nat)
    (hqb : opts.queue_buffer = 0)
    (hsa : shouldAdd st opts.queue_buffer = true) :
    TryEnqueue opts st picks pIdx fuel =
      some ([Act.add (picks pIdx)] ++
        (if pastLast st || queueEmpty st then
           Act.playAt st.queueLength ::
             (if st.single then [Act.pause] else [])
         else []), pIdx + 1) := by
  have hsa0 : shouldAdd st 0 = true := by rw [hqb] at hsa; exact hsa
  simp [TryEnqueue, hqb, hsa0]

theorem tryEnqueue_single_group_witness :
    TryEnqueue ⟨0, false, ⟨0, false, false⟩⟩ ⟨0, none, false, false⟩
        (fun _ => ["g1", "g2"]) 0 0 =
      some ([Act.add ["g1", "g2"]] ++
        (if pastLast ⟨0, none, false, false⟩ ||
            queueEmpty ⟨0, none, false, false⟩ then
           Act.playAt (0 : Nat) ::
             (if (⟨0, none, false, false⟩ : Status).single then [Act.pause]
              else [])
         else []), 0 + 1) :=
  tryEnqueue_single_group ⟨0, false, ⟨0, false, false⟩⟩ ⟨0, none, false, false⟩
    (fun _ => ["g1", "g2"]) 0 0 rfl (by decide)

/-- C6: whenever the event set contains DatabaseChanged and the
controller is configured to exit on database update, the iteration
exits immediately with an empty action trace: no reload, no suspend
check, no enqueue, and no Pick, Clear, Load or Add afterwards. -/
theorem loopIter_exit_on_db (opts : Options) (env : Env)
    (events : IdleEventSet) (active : Bool) (chain : ShuffleChain)
    (sIdx pIdx fuel : Nat)
    (hdb : events.Has MPD_IDLE_DATABASE = true)
    (hexit : opts.tweak.exit_on_db_update = true) :
    LoopIter opts env events active chain sIdx pIdx fuel =
      some ⟨true, active, chain, [], sIdx, pIdx⟩ := by
  simp [LoopIter, hdb, hexit]

theorem loopIter_exit_on_db_witness :
    LoopIter ⟨0, false, ⟨0, false, true⟩⟩
        ⟨fun _ => ⟨0, none, false, false⟩, fun _ => ["s"], []⟩
        ⟨5⟩ true ⟨[["a"]]⟩ 0 0 0 =
      some ⟨true, true, ⟨[["a"]]⟩, [], 0, 0⟩ :=
  loopIter_exit_on_db ⟨0, false, ⟨0, false, true⟩⟩
    ⟨fun _ => ⟨0, none, false, false⟩, fun _ => ["s"], []⟩
    ⟨5⟩ true ⟨[["a"]]⟩ 0 0 0 (by decide) rfl

/-- C10: the append loop terminates for every `needed` whenever every
picked group holds at least one identifier (fuel `needed.toNat`
suffices, since `needed` strictly decreases by each group's size), and
a pick oracle that returns an empty sequence can make it run forever:
with every pick empty and a positive `needed`, no amount of fuel
finishes the loop. -/
theorem enqueueLoop_termination :
    (∀ picks : Nat → List String,
       (∀ j, (picks j).length ≠ 0) →
       (∀ j, (picks j).length < 2147483648) →
       ∀ i needed, ∃ r, enqueueLoop picks needed.toNat i needed = some r) ∧
    (∀ fuel i needed, 0 < needed →
       enqueueLoop (fun _ => ([] : List String)) fuel i needed = none) := by
  constructor
  · intro picks hne hsm i needed
    obtain ⟨k, hk, -, -, -⟩ :=
      enqueueLoop_sound picks hne hsm needed.toNat i needed le_rfl
    exact ⟨_, hk⟩
  · intro fuel
    induction fuel with
    | zero =>
      intro i needed h0
      rw [enqueueLoop, if_pos h0]
    | succ f ih =>
      intro i needed h0
      rw [enqueueLoop, if_pos h0]
      have ht0 : toInt32 0 = 0 := by decide
      simp only [List.length_nil]
      rw [ih (i + 1) (needed - toInt32 0) (by rw [ht0]; omega)]

theorem enqueueLoop_termination_witness :
    (∃ r, enqueueLoop (fun _ => ["w"]) (2 : Int).toNat 0 2 = some r) ∧
    enqueueLoop (fun _ => ([] : List String)) 7 0 2 = none :=
  ⟨enqueueLoop_termination.1 (fun _ => ["w"]) (by intro j; simp)
     (by intro j; norm_num) 0 2,
   enqueueLoop_termination.2 7 0 2 (by decide)⟩

/-- C3: with should_add and a positive queue buffer, the enqueue
decision computes needed = queue_buffer - remaining (plus one when
past the last song or the queue is empty) and picks and appends whole
groups until the cumulative appended count reaches needed; the prefix
before the final picked group is strictly below needed, so the
overshoot is strictly less than the final group's size. -/
theorem tryEnqueue_buffer_fill (opts : Options) (st : Status)
    (picks : Nat → List String) (pIdx fuel : Nat)
    (hsa : shouldAdd st opts.queue_buffer = true)
    (hqb : 0 < opts.queue_buffer)
    (hne : ∀ j, (picks j).length ≠ 0)
    (hsm : ∀ j, (picks j).length < 2147483648)
    (hfuel : (neededInit st opts.queue_buffer).toNat ≤ fuel) :
    ∃ k : Nat,
      TryEnqueue opts st picks pIdx fuel =
        some ((groupsFrom picks pIdx k).map Act.add ++
          (if pastLast st || queueEmpty st then
             Act.playAt st.queueLength ::
               (if st.single then [Act.pause] else [])
           else []), pIdx + k) ∧
      neededInit st opts.queue_buffer ≤
        (sumLen (groupsFrom picks pIdx k) : Int) ∧
      (k = 0 → neededInit st opts.queue_buffer ≤ 0) ∧
      (0 < k → (sumLen (groupsFrom picks pIdx (k - 1)) : Int) <
                 neededInit st opts.queue_buffer) := by
  obtain ⟨k, hk, hsum, hk0, hpre⟩ :=
    enqueueLoop_sound picks hne hsm fuel pIdx _ hfuel
  have hqb2 : opts.queue_buffer ≠ 0 := by omega
  refine ⟨k, ?_, hsum, hk0, hpre⟩
  simp [TryEnqueue, hsa, hqb2, hk]

theorem tryEnqueue_buffer_fill_witness :
    ∃ k : Nat,
      TryEnqueue ⟨2, false, ⟨0, false, false⟩⟩ ⟨0, none, false, false⟩
          (fun _ => ["x"]) 0 3 =
        some ((groupsFrom (fun _ => ["x"]) 0 k).map Act.add ++
          (if pastLast ⟨0, none, false, false⟩ ||
              queueEmpty ⟨0, none, false, false⟩ then
             Act.playAt (0 : Nat) ::
               (if (⟨0, none, false, false⟩ : Status).single then [Act.pause]
                else [])
           else []), 0 + k) ∧
      neededInit ⟨0, none, false, false⟩ 2 ≤
        (sumLen (groupsFrom (fun _ => ["x"]) 0 k) : Int) ∧
      (k = 0 → neededInit ⟨0, none, false, false⟩ 2 ≤ 0) ∧
      (0 < k → (sumLen (groupsFrom (fun _ => ["x"]) 0 (k - 1)) : Int) <
                 neededInit ⟨0, none, false, false⟩ 2) :=
  tryEnqueue_buffer_fill ⟨2, false, ⟨0, false, false⟩⟩ ⟨0, none, false, false⟩
    (fun _ => ["x"]) 0 3 (by decide) (by decide) (by intro j; simp)
    (by intro j; norm_num) (by decide)

/-- C4: with should_add and past_last-or-queue-empty, the enqueue
decision ends by instructing playback at the pre-enqueue queue length
and pauses exactly when single mode is reported; with single mode off
no Pause occurs anywhere in the emitted actions. -/
theorem tryEnqueue_restart_play (opts : Options) (st : Status)
    (picks : Nat → List String) (pIdx fuel : Nat)
    (hsa : shouldAdd st opts.queue_buffer = true)
    (hpe : (pastLast st || queueEmpty st) = true)
    (hne : ∀ j, (picks j).length ≠ 0)
    (hsm : ∀ j, (picks j).length < 2147483648)
    (hfuel : (neededInit st opts.queue_buffer).toNat ≤ fuel) :
    ∃ (gs : List (List String)) (p2 : Nat),
      TryEnqueue opts st picks pIdx fuel =
        some (gs.map Act.add ++
          (Act.playAt st.queueLength ::
            (if st.single then [Act.pause] else [])), p2) ∧
      (st.single = false →
        Act.pause ∉ gs.map Act.add ++
          (Act.playAt st.queueLength ::
            (if st.single then [Act.pause] else []))) := by
  obtain ⟨gs, p2, heq⟩ :=
    tryEnqueue_shape opts st picks pIdx fuel hne hsm hfuel
  rw [hsa, hpe] at heq
  simp only [Bool.and_self, if_true] at heq
  refine ⟨gs, p2, heq, fun hs => ?_⟩
  simp [hs, List.mem_append, List.mem_map]

theorem tryEnqueue_restart_play_witness :
    ∃ (gs : List (List String)) (p2 : Nat),
      TryEnqueue ⟨2, false, ⟨0, false, false⟩⟩ ⟨0, none, false, false⟩
          (fun _ => ["y"]) 0 3 =
        some (gs.map Act.add ++
          (Act.playAt (0 : Nat) ::
            (if (⟨0, none, false, false⟩ : Status).single then [Act.pause]
             else [])), p2) ∧
      ((⟨0, none, false, false⟩ : Status).single = false →
        Act.pause ∉ gs.map Act.add ++
          (Act.playAt (0 : Nat) ::
            (if (⟨0, none, false, false⟩ : Status).single then [Act.pause]
             else []))) :=
  tryEnqueue_restart_play ⟨2, false, ⟨0, false, false⟩⟩ ⟨0, none, false, false⟩
    (fun _ => ["y"]) 0 3 (by decide) (by decide) (by intro j; simp)
    (by intro j; norm_num) (by decide)

/-- C7: with a static-file catalog source, an iteration whose event set
contains DatabaseChanged performs no reload: the chain is unchanged (so
its group count and identifier count are unchanged) and the trace holds
no Clear and no Load. -/
theorem loopIter_static_file_frame (opts : Options) (env : Env)
    (events : IdleEventSet) (active : Bool) (chain : ShuffleChain)
    (sIdx pIdx fuel : Nat) (out : IterOut)
    (hfile : opts.file_in = true)
    (hdb : events.Has MPD_IDLE_DATABASE = true)
    (hout : LoopIter opts env events active chain sIdx pIdx fuel = some out) :
    out.chain = chain ∧ out.chain.Len = chain.Len ∧
      out.chain.LenURIs = chain.LenURIs ∧
      Act.clearChain ∉ out.trace ∧ Act.loadChain ∉ out.trace := by
  have hmain : out.chain = chain ∧ Act.clearChain ∉ out.trace ∧
      Act.loadChain ∉ out.trace := by
    simp only [LoopIter, hfile, Bool.not_true, Bool.and_false] at hout
    rw [if_neg Bool.false_ne_true] at hout
    split at hout
    · simp only [Option.some.injEq] at hout
      subst hout
      exact ⟨rfl, by simp, by simp⟩
    · split at hout
      · exact queuePlayerStep_frame hout
      · simp only [Option.some.injEq] at hout
        subst hout
        exact ⟨rfl, by simp, by simp⟩
  exact ⟨hmain.1, by rw [hmain.1], by rw [hmain.1], hmain.2.1, hmain.2.2⟩

theorem loopIter_static_file_frame_witness :
    (⟨false, true, ⟨[["a"], ["b", "c"]]⟩, [], 0, 0⟩ : IterOut).chain =
        ⟨[["a"], ["b", "c"]]⟩ ∧
      (⟨false, true, ⟨[["a"], ["b", "c"]]⟩, [], 0, 0⟩ : IterOut).chain.Len =
        ShuffleChain.Len ⟨[["a"], ["b", "c"]]⟩ ∧
      (⟨false, true, ⟨[["a"], ["b", "c"]]⟩, [], 0, 0⟩ : IterOut).chain.LenURIs =
        ShuffleChain.LenURIs ⟨[["a"], ["b", "c"]]⟩ ∧
      Act.clearChain ∉
        (⟨false, true, ⟨[["a"], ["b", "c"]]⟩, [], 0, 0⟩ : IterOut).trace ∧
      Act.loadChain ∉
        (⟨false, true, ⟨[["a"], ["b", "c"]]⟩, [], 0, 0⟩ : IterOut).trace :=
  loopIter_static_file_frame ⟨0, true, ⟨0, false, false⟩⟩
    ⟨fun _ => ⟨0, none, false, false⟩, fun _ => ["s"], []⟩ ⟨1⟩ true
    ⟨[["a"], ["b", "c"]]⟩ 0 0 0 ⟨false, true, ⟨[["a"], ["b", "c"]]⟩, [], 0, 0⟩
    rfl (by decide) rfl

/-- C8: with play_on_startup configured, the controller first reads the
player status; when not playing it appends exactly one picked group and
starts playback at the prior queue length, and when already playing it
adds and starts nothing; in both cases one ordinary enqueue pass
follows. -/
theorem startup_first_then_enqueue (opts : Options) (env : Env) (fuel : Nat)
    (hplay : opts.tweak.play_on_startup = true)
    (hne : ∀ j, (env.picks j).length ≠ 0)
    (hsm : ∀ j, (env.picks j).length < 2147483648)
    (hfuel : (neededInit (env.statuses 1) opts.queue_buffer).toNat ≤ fuel) :
    ∃ (a2 : List Act) (p2 : Nat),
      TryEnqueue opts (env.statuses 1) env.picks
        (if (env.statuses 0).isPlaying then 0 else 1) fuel = some (a2, p2) ∧
      StartupPhase opts env fuel =
        some ((if (env.statuses 0).isPlaying then ([] : List Act)
               else [Act.add (env.picks 0),
                     Act.playAt (env.statuses 0).queueLength]) ++ a2,
              2, p2) := by
  by_cases hp : (env.statuses 0).isPlaying
  · obtain ⟨gs, p2, heq⟩ :=
      tryEnqueue_shape opts (env.statuses 1) env.picks 0 fuel hne hsm hfuel
    refine ⟨gs.map Act.add ++
      (if shouldAdd (env.statuses 1) opts.queue_buffer &&
          (pastLast (env.statuses 1) || queueEmpty (env.statuses 1)) then
         Act.playAt (env.statuses 1).queueLength ::
           (if (env.statuses 1).single then [Act.pause] else [])
       else []), p2, ?_, ?_⟩
    · simp only [hp, if_true]
      exact heq
    · simp [StartupPhase, TryFirst, hplay, hp, heq]
  · obtain ⟨gs, p2, heq⟩ :=
      tryEnqueue_shape opts (env.statuses 1) env.picks 1 fuel hne hsm hfuel
    refine ⟨gs.map Act.add ++
      (if shouldAdd (env.statuses 1) opts.queue_buffer &&
          (pastLast (env.statuses 1) || queueEmpty (env.statuses 1)) then
         Act.playAt (env.statuses 1).queueLength ::
           (if (env.statuses 1).single then [Act.pause] else [])
       else []), p2, ?_, ?_⟩
    · simp only [hp, if_false]
      exact heq
    · simp [StartupPhase, TryFirst, hplay, hp, heq]

theorem startup_first_then_enqueue_witness :
    ∃ (a2 : List Act) (p2 : Nat),
      TryEnqueue ⟨0, false, ⟨0, true, false⟩⟩
        ((⟨fun _ => ⟨0, none, false, false⟩, fun _ => ["p"], []⟩ :
          Env).statuses 1)
        (⟨fun _ => ⟨0, none, false, false⟩, fun _ => ["p"], []⟩ :
          Env).picks
        (if ((⟨fun _ => ⟨0, none, false, false⟩, fun _ => ["p"], []⟩ :
              Env).statuses 0).isPlaying then 0 else 1) 1 = some (a2, p2) ∧
      StartupPhase ⟨0, false, ⟨0, true, false⟩⟩
          ⟨fun _ => ⟨0, none, false, false⟩, fun _ => ["p"], []⟩ 1 =
        some ((if ((⟨fun _ => ⟨0, none, false, false⟩, fun _ => ["p"], []⟩ :
                    Env).statuses 0).isPlaying then ([] : List Act)
               else [Act.add ((⟨fun _ => ⟨0, none, false, false⟩,
                               fun _ => ["p"], []⟩ : Env).picks 0),
                     Act.playAt ((⟨fun _ => ⟨0, none, false, false⟩,
                                  fun _ => ["p"], []⟩ :
                                  Env).statuses 0).queueLength]) ++ a2,
              2, p2) :=
  startup_first_then_enqueue ⟨0, false, ⟨0, true, false⟩⟩
    ⟨fun _ => ⟨0, none, false, false⟩, fun _ => ["p"], []⟩ 1 rfl
    (by intro j; simp) (by intro j; norm_num) (by decide)

/-- C9: within one iteration on an event set containing
DatabaseChanged, the database-exit check comes first (exit with an
empty trace), then the reload (clear-then-load, with queue/player
handling skipped in that iteration), and the queue/player branch runs
only when the database event was not fully handled (static-file
source). -/
theorem loopIter_db_ordering (opts : Options) (env : Env)
    (events : IdleEventSet) (active : Bool) (chain : ShuffleChain)
    (sIdx pIdx fuel : Nat)
    (hdb : events.Has MPD_IDLE_DATABASE = true) :
    (opts.tweak.exit_on_db_update = true →
       LoopIter opts env events active chain sIdx pIdx fuel =
         some ⟨true, active, chain, [], sIdx, pIdx⟩) ∧
    (opts.tweak.exit_on_db_update = false → opts.file_in = false →
       LoopIter opts env events active chain sIdx pIdx fuel =
         some ⟨false, active, ⟨env.loadResult⟩,
               [Act.clearChain, Act.loadChain], sIdx, pIdx⟩) ∧
    (opts.tweak.exit_on_db_update = false → opts.file_in = true →
       LoopIter opts env events active chain sIdx pIdx fuel =
         (if events.Has MPD_IDLE_QUEUE || events.Has MPD_IDLE_PLAYER then
            QueuePlayerStep opts env active chain sIdx pIdx fuel
          else some ⟨false, active, chain, [], sIdx, pIdx⟩)) := by
  refine ⟨fun hexit => ?_, fun hexit hfile => ?_, fun hexit hfile => ?_⟩
  · simp [LoopIter, hdb, hexit]
  · simp [LoopIter, hdb, hexit, hfile, Reloader]
  · simp [LoopIter, hdb, hexit, hfile]

theorem loopIter_db_ordering_witness :
    ((⟨0, true, ⟨0, false, false⟩⟩ : Options).tweak.exit_on_db_update = true →
       LoopIter ⟨0, true, ⟨0, false, false⟩⟩
           ⟨fun _ => ⟨1, some 0, false, true⟩, fun _ => ["s"], []⟩
           ⟨5⟩ true ⟨[["a"]]⟩ 0 0 0 =
         some ⟨true, true, ⟨[["a"]]⟩, [], 0, 0⟩) ∧
    ((⟨0, true, ⟨0, false, false⟩⟩ : Options).tweak.exit_on_db_update = false →
       (⟨0, true, ⟨0, false, false⟩⟩ : Options).file_in = false →
       LoopIter ⟨0, true, ⟨0, false, false⟩⟩
           ⟨fun _ => ⟨1, some 0, false, true⟩, fun _ => ["s"], []⟩
           ⟨5⟩ true ⟨[["a"]]⟩ 0 0 0 =
         some ⟨false, true, ⟨[]⟩,
               [Act.clearChain, Act.loadChain], 0, 0⟩) ∧
    ((⟨0, true, ⟨0, false, false⟩⟩ : Options).tweak.exit_on_db_update = false →
       (⟨0, true, ⟨0, false, false⟩⟩ : Options).file_in = true →
       LoopIter ⟨0, true, ⟨0, false, false⟩⟩
           ⟨fun _ => ⟨1, some 0, false, true⟩, fun _ => ["s"], []⟩
           ⟨5⟩ true ⟨[["a"]]⟩ 0 0 0 =
         (if (⟨5⟩ : IdleEventSet).Has MPD_IDLE_QUEUE ||
             (⟨5⟩ : IdleEventSet).Has MPD_IDLE_PLAYER then
            QueuePlayerStep ⟨0, true, ⟨0, false, false⟩⟩
              ⟨fun _ => ⟨1, some 0, false, true⟩, fun _ => ["s"], []⟩
              true ⟨[["a"]]⟩ 0 0 0
          else some ⟨false, true, ⟨[["a"]]⟩, [], 0, 0⟩)) :=
  loopIter_db_ordering ⟨0, true, ⟨0, false, false⟩⟩
    ⟨fun _ => ⟨1, some 0, false, true⟩, fun _ => ["s"], []⟩
    ⟨5⟩ true ⟨[["a"]]⟩ 0 0 0 (by decide)

end Ashuffle
